import Mathlib

/-!
Shallow embedding of the gesture-to-command dispatcher in
`src/tools/libinput-debug-events.c`.

The embedded C entities:
* `coord_to_zone`   — the pure zone classifier (doubles modelled as `ℚ`,
  the comparisons are exact in both models);
* `touch_buffer`    — the 5-entry global `char` array, modelled as a
  `List Char` of length 5, zero-initialised (`nulChar`);
* `strcmp`          — C `strcmp` on NUL-terminated strings, modelled on
  `List Char` without terminator (the empty list is the empty C string);
* `event_to_command`— the match-and-execute loop: it derives the gesture
  string from the buffer via `strncpy` semantics (`derive_event`: take
  `nb+1` bytes, truncate at the first NUL) and runs `system` on the
  action of every entry whose pattern `strcmp`-equals the gesture; the
  returned list is the sequence of actions executed, in table order;
* `touch_event`     — the dispatcher step for one TOUCH_DOWN event;
* the `--cmd` option parser in `main` (`findSplitter` / `parse_cmd`):
  scans the argument for direction letters, accepts a `-` separator at
  position 2..5, rejects anything else.
-/

namespace TapToCommand

/-- The NUL byte, the initial content of `touch_buffer` (a zeroed static). -/
def nulChar : Char := Char.ofNat 0

/-- The direction-letter test from the `OPT_CMD` parse loop:
`optarg[i] == 'g' || optarg[i] == 'h' || optarg[i] == 'b' || optarg[i] == 'd'`. -/
def isDirLetter (c : Char) : Bool :=
  c == 'g' || c == 'h' || c == 'b' || c == 'd'

/-- One `struct Command` node: `event` is the pattern, `action` the command. -/
structure Command where
  event : List Char
  action : List Char
deriving DecidableEq

/-- Function `coord_to_zone` from the source: classify a position in the 100×100
square by the two diagonal tests. -/
def coord_to_zone (x y : ℚ) : Char :=
  if y < 100 - x then
    if y < x then 'h' else 'g'
  else
    if y < x then 'd' else 'b'

/-- C `strcmp` on NUL-free `List Char` strings: returns 0 on equality,
otherwise the (signed) difference of the first differing bytes, where
running off the end of one string compares its NUL terminator. -/
def strcmp : List Char → List Char → Int
  | [], [] => 0
  | [], c :: _ => -(c.toNat : Int)
  | c :: _, [] => (c.toNat : Int)
  | a :: as, b :: bs =>
    if a = b then strcmp as bs else (a.toNat : Int) - (b.toNat : Int)

/-- The gesture string built in `event_to_command`:
`strncpy(event, touch_buffer, nb+1); event[nb+1] = 0` copies the first
`nb+1` bytes of the buffer and, as a C string, stops at the first NUL. -/
def derive_event (buf : List Char) (nb : Nat) : List Char :=
  (buf.take (nb + 1)).takeWhile (fun c => c != nulChar)

/-- The scan loop of `event_to_command`: for every `cursor` in the list,
if `strcmp(event, cursor->event) == 0` then `system(cursor->action)` runs
(and the match is printed).  The result lists the actions executed, in
table order.  Note the loop has no `break`: it does not stop at the
first match. -/
def event_to_command (event : List Char) : List Command → List (List Char)
  | [] => []
  | cursor :: rest =>
    if strcmp event cursor.event = 0 then
      cursor.action :: event_to_command event rest
    else
      event_to_command event rest

/-- The mutable globals the dispatcher touches: `touch_buffer` and the
`commands` list (head = most recently declared binding, by prepending). -/
structure State where
  buf : List Char
  commands : List Command
deriving DecidableEq

/-- Process-start state: `static char touch_buffer[5]` is zero-initialised;
`commands` holds the bindings parsed from the command line. -/
def initState (cmds : List Command) : State :=
  { buf := List.replicate 5 nulChar, commands := cmds }

/-- Function `touch_event` from the source: drop the event when the slot is out of
range, otherwise record the zone at the slot and, for slots above 0, run
`event_to_command` on the updated buffer.  Returns the new state and the
list of actions executed. -/
def touch_event (st : State) (nb : Int) (x y : ℚ) : State × List (List Char) :=
  if nb < 0 ∨ 5 ≤ nb then (st, [])
  else
    let buf' := st.buf.set nb.toNat (coord_to_zone x y)
    if 0 < nb then
      ({ st with buf := buf' }, event_to_command (derive_event buf' nb.toNat) st.commands)
    else
      ({ st with buf := buf' }, [])

/-- The `OPT_CMD` scan loop of `main`: walk the argument with counter `i`;
direction letters continue the loop; the first non-letter either is a
separator `-` at position `2 ≤ i ≤ 5` (accept, return the position) or
rejects the entry; running out of characters rejects too
(`splitter_found` stays false). -/
def findSplitter : List Char → Nat → Option Nat
  | [], _ => none
  | c :: rest, i =>
    if isDirLetter c then findSplitter rest (i + 1)
    else if c = '-' ∧ 2 ≤ i ∧ i ≤ 5 then some i
    else none

/-- Parsing one `--cmd` argument: on success the stored pattern is the
first `i` characters (`strncpy(candidate->event, optarg, i)`) and the
stored action is the remainder after the separator (`optarg + i` with
`i` already advanced past the `-`); `none` models the
`EXIT_INVALID_USAGE` path taken before the event loop starts. -/
def parse_cmd (s : List Char) : Option (List Char × List Char) :=
  match findSplitter s 0 with
  | some i => some (s.take i, s.drop (i + 1))
  | none => none

/-! Concrete fixtures used in closed statements: binding tables as built by
repeated `--cmd` flags (prepending, so the later flag is the list head). -/

/-- Table from `--cmd gd-A --cmd gd-B`: two identical patterns, B declared last. -/
def cexCmds : List Command :=
  [⟨"gd".toList, "B".toList⟩, ⟨"gd".toList, "A".toList⟩]

/-- Table from `--cmd gd-A --cmd gdb-B`: a 2-pattern and a 3-pattern. -/
def cmds7 : List Command :=
  [⟨"gdb".toList, "B".toList⟩, ⟨"gd".toList, "A".toList⟩]

/-- A state with slot 0 already holding zone `'g'` and one binding `gd-run`. -/
def wStC4 : State :=
  ⟨['g', nulChar, nulChar, nulChar, nulChar], [⟨"gd".toList, "run".toList⟩]⟩

/-- A state with slot 0 already holding zone `'g'` and two identical-pattern
bindings (B declared last, hence first in the table). -/
def wStC8 : State :=
  ⟨['g', nulChar, nulChar, nulChar, nulChar], cexCmds⟩

/-! Helper lemmas. -/

theorem char_eq_of_toNat_eq {a b : Char} (h : a.toNat = b.toNat) : a = b :=
  Char.eq_of_val_eq (UInt32.ext h)

theorem toNat_ne_zero_of_ne_nul {c : Char} (h : c ≠ nulChar) : c.toNat ≠ 0 := by
  intro h0
  exact h (char_eq_of_toNat_eq (by simpa [nulChar] using h0))

theorem dirLetter_ne_nul {c : Char} (h : isDirLetter c = true) : c ≠ nulChar := by
  intro hc
  subst hc
  exact absurd h (by decide)

theorem coord_to_zone_ne_nul (x y : ℚ) : coord_to_zone x y ≠ nulChar := by
  unfold coord_to_zone nulChar
  split_ifs <;> decide

theorem strcmp_eq_zero_iff : ∀ (a b : List Char), nulChar ∉ a → nulChar ∉ b →
    (strcmp a b = 0 ↔ a = b)
  | [], [], _, _ => by simp [strcmp]
  | [], c :: bs, _, hb => by
    have hc : c.toNat ≠ 0 := toNat_ne_zero_of_ne_nul (fun h => hb (by simp [h]))
    rw [show strcmp [] (c :: bs) = -(c.toNat : Int) from rfl]
    constructor
    · intro h
      exact absurd (by omega : c.toNat = 0) hc
    · intro h
      exact List.noConfusion h
  | c :: as, [], ha, _ => by
    have hc : c.toNat ≠ 0 := toNat_ne_zero_of_ne_nul (fun h => ha (by simp [h]))
    rw [show strcmp (c :: as) [] = (c.toNat : Int) from rfl]
    constructor
    · intro h
      exact absurd (by omega : c.toNat = 0) hc
    · intro h
      exact List.noConfusion h
  | a :: as, b :: bs, ha, hb => by
    have ha' : nulChar ∉ as := fun h => ha (List.mem_cons_of_mem _ h)
    have hb' : nulChar ∉ bs := fun h => hb (List.mem_cons_of_mem _ h)
    by_cases hab : a = b
    · subst hab
      rw [show strcmp (a :: as) (a :: bs) = strcmp as bs from by simp [strcmp]]
      rw [strcmp_eq_zero_iff as bs ha' hb']
      simp
    · have h1 : a.toNat ≠ b.toNat := fun h => hab (char_eq_of_toNat_eq h)
      rw [show strcmp (a :: as) (b :: bs) = (a.toNat : Int) - (b.toNat : Int) from by
        simp [strcmp, hab]]
      constructor
      · intro h
        exact absurd (by omega : a.toNat = b.toNat) h1
      · intro h
        injection h with h1' h2'
        exact absurd h1' hab

theorem takeWhile_ne_nul_eq_self : ∀ (l : List Char), (∀ c ∈ l, c ≠ nulChar) →
    l.takeWhile (fun c => c != nulChar) = l
  | [], _ => rfl
  | c :: cs, h => by
    have hc : c ≠ nulChar := h c (List.mem_cons_self c cs)
    simp only [List.takeWhile_cons, bne_iff_ne, ne_eq, hc, not_false_eq_true, if_true]
    rw [takeWhile_ne_nul_eq_self cs (fun x hx => h x (List.mem_cons_of_mem _ hx))]

theorem event_to_command_eq_filter (ev : List Char) :
    ∀ cmds : List Command, event_to_command ev cmds
      = (cmds.filter (fun c => strcmp ev c.event == 0)).map Command.action
  | [] => rfl
  | cursor :: rest => by
    by_cases h : strcmp ev cursor.event = 0 <;>
      simp [event_to_command, List.filter_cons, h, event_to_command_eq_filter ev rest]

theorem event_to_command_head (ev : List Char) :
    ∀ cmds : List Command, (event_to_command ev cmds).head?
      = (cmds.find? (fun c => strcmp ev c.event == 0)).map Command.action
  | [] => rfl
  | cursor :: rest => by
    by_cases h : strcmp ev cursor.event = 0 <;>
      simp [event_to_command, List.find?_cons, h, event_to_command_head ev rest]

theorem event_to_command_nil_of_no_match (ev : List Char) :
    ∀ cmds : List Command, (∀ c ∈ cmds, strcmp ev c.event ≠ 0) →
      event_to_command ev cmds = []
  | [], _ => rfl
  | cursor :: rest, h => by
    simp [event_to_command, h cursor (List.mem_cons_self cursor rest),
      event_to_command_nil_of_no_match ev rest (fun c hc => h c (List.mem_cons_of_mem _ hc))]

theorem take_set_all_ne_nul {buf : List Char} {s : Nat} {z : Char}
    (hlen : buf.length = 5) (hs : s ≤ 4) (hz : z ≠ nulChar)
    (hbuf : ∀ i : Nat, i < s → buf[i]? ≠ some nulChar) :
    ∀ c ∈ (buf.set s z).take (s + 1), c ≠ nulChar := by
  intro c hc
  rw [List.mem_iff_getElem?] at hc
  obtain ⟨i, hget⟩ := hc
  have hi : i < s + 1 := by
    by_contra hlt
    rw [List.getElem?_take, if_neg hlt] at hget
    exact Option.noConfusion hget
  rw [List.getElem?_take, if_pos hi] at hget
  by_cases his : i = s
  · subst his
    rw [List.getElem?_set_self (by omega)] at hget
    intro hcn
    injection hget with h
    exact hz (h.trans hcn)
  · rw [List.getElem?_set_ne (fun h => his h.symm)] at hget
    intro hcn
    exact hbuf i (by omega) (by rw [hget, hcn])

theorem take_length_of_le {l : List Char} {n : Nat} (h : n ≤ l.length) :
    (l.take n).length = n := by
  simp [List.length_take, Nat.min_eq_left h]

theorem touch_event_valid (st : State) (s : Nat) (hs : s ≤ 4) (x y : ℚ) :
    touch_event st (s : Int) x y =
      if 0 < s then
        ({ st with buf := st.buf.set s (coord_to_zone x y) },
          event_to_command (derive_event (st.buf.set s (coord_to_zone x y)) s) st.commands)
      else ({ st with buf := st.buf.set s (coord_to_zone x y) }, []) := by
  unfold touch_event
  rw [if_neg (by omega : ¬((s : Int) < 0 ∨ 5 ≤ (s : Int)))]
  simp only [Int.toNat_natCast]
  by_cases h0 : 0 < s
  · rw [if_pos (by exact_mod_cast h0), if_pos h0]
  · rw [if_neg (by exact_mod_cast h0), if_neg h0]

theorem touch_event_buf (st : State) (s : Nat) (hs : s ≤ 4) (x y : ℚ) :
    ((touch_event st (s : Int) x y).1).buf = st.buf.set s (coord_to_zone x y) := by
  rw [touch_event_valid st s hs x y]
  by_cases h0 : 0 < s
  · rw [if_pos h0]
  · rw [if_neg h0]

theorem touch_event_commands (st : State) (s : Nat) (hs : s ≤ 4) (x y : ℚ) :
    ((touch_event st (s : Int) x y).1).commands = st.commands := by
  rw [touch_event_valid st s hs x y]
  by_cases h0 : 0 < s
  · rw [if_pos h0]
  · rw [if_neg h0]

theorem touch_event_exec (st : State) (s : Nat) (h1 : 1 ≤ s) (hs : s ≤ 4) (x y : ℚ) :
    (touch_event st (s : Int) x y).2
      = event_to_command (derive_event (st.buf.set s (coord_to_zone x y)) s) st.commands := by
  rw [touch_event_valid st s hs x y, if_pos (by omega : 0 < s)]

theorem touch_event_zero (st : State) (x y : ℚ) :
    touch_event st (0 : Int) x y
      = ({ st with buf := st.buf.set 0 (coord_to_zone x y) }, []) := by
  have h := touch_event_valid st 0 (by norm_num) x y
  simpa using h

theorem findSplitter_cons (c : Char) (rest : List Char) (i : Nat) :
    findSplitter (c :: rest) i =
      if isDirLetter c then findSplitter rest (i + 1)
      else if c = '-' ∧ 2 ≤ i ∧ i ≤ 5 then some i
      else none := rfl

theorem findSplitter_some : ∀ (s : List Char) (i j : Nat), findSplitter s i = some j →
    i ≤ j ∧ 2 ≤ j ∧ j ≤ 5 ∧
      ∃ p a, s = p ++ '-' :: a ∧ p.length = j - i ∧ ∀ c ∈ p, isDirLetter c
  | [], i, j => by simp [findSplitter]
  | c :: rest, i, j => by
    intro h
    rw [findSplitter_cons] at h
    by_cases hdir : isDirLetter c = true
    · rw [if_pos hdir] at h
      obtain ⟨hij, h2, h5, p, a, hs, hlen, hall⟩ := findSplitter_some rest (i + 1) j h
      refine ⟨by omega, h2, h5, c :: p, a, by simp [hs], by simp; omega, ?_⟩
      intro x hx
      rcases List.mem_cons.mp hx with rfl | hx
      · exact hdir
      · exact hall x hx
    · rw [if_neg hdir] at h
      by_cases hsep : c = '-' ∧ 2 ≤ i ∧ i ≤ 5
      · obtain ⟨hc, hi2, hi5⟩ := hsep
        rw [if_pos ⟨hc, hi2, hi5⟩] at h
        injection h with h
        subst h
        subst hc
        exact ⟨le_refl _, hi2, hi5, [], rest, by simp, by simp, by simp⟩
      · rw [if_neg hsep] at h
        exact Option.noConfusion h

theorem findSplitter_of_pattern : ∀ (p a : List Char) (i : Nat),
    (∀ c ∈ p, isDirLetter c) → 2 ≤ i + p.length → i + p.length ≤ 5 →
    findSplitter (p ++ '-' :: a) i = some (i + p.length)
  | [], a, i, _, h2, h5 => by
    simp only [List.nil_append, List.length_nil, Nat.add_zero] at *
    rw [findSplitter_cons]
    rw [if_neg (by decide : ¬(isDirLetter '-' = true))]
    rw [if_pos ⟨rfl, h2, h5⟩]
  | c :: p, a, i, hall, h2, h5 => by
    have hc : isDirLetter c = true := hall c (List.mem_cons_self c p)
    rw [List.cons_append, findSplitter_cons, if_pos hc]
    rw [findSplitter_of_pattern p a (i + 1)
      (fun x hx => hall x (List.mem_cons_of_mem _ hx)) (by simp at h2 ⊢; omega)
      (by simp at h5 ⊢; omega)]
    congr 1
    simp
    omega

theorem parse_cmd_some_iff (s p a : List Char) :
    parse_cmd s = some (p, a) ↔
      2 ≤ p.length ∧ p.length ≤ 5 ∧ (∀ c ∈ p, isDirLetter c) ∧ s = p ++ '-' :: a := by
  constructor
  · intro h
    cases hfs : findSplitter s 0 with
    | none => simp [parse_cmd, hfs] at h
    | some j =>
      simp only [parse_cmd, hfs, Option.some.injEq, Prod.mk.injEq] at h
      obtain ⟨hp, ha⟩ := h
      obtain ⟨-, h2, h5, q, b, hs, hlen, hall⟩ := findSplitter_some s 0 j hfs
      have hj : q.length = j := by omega
      subst hs
      rw [← hj] at hp ha
      rw [List.take_left] at hp
      have hdrop : (q ++ '-' :: b).drop (q.length + 1) = b := by
        rw [show q ++ '-' :: b = (q ++ ['-']) ++ b from by simp]
        rw [show q.length + 1 = (q ++ ['-']).length from by simp]
        exact List.drop_left _ _
      rw [hdrop] at ha
      subst hp
      subst ha
      exact ⟨by omega, by omega, hall, rfl⟩
  · rintro ⟨h2, h5, hall, rfl⟩
    have hfs : findSplitter (p ++ '-' :: a) 0 = some p.length := by
      have h := findSplitter_of_pattern p a 0 hall (by omega) (by omega)
      simpa using h
    simp only [parse_cmd, hfs, Option.some.injEq, Prod.mk.injEq]
    constructor
    · exact List.take_left p ('-' :: a)
    · rw [show p ++ '-' :: a = (p ++ ['-']) ++ a from by simp]
      rw [show p.length + 1 = (p ++ ['-']).length from by simp]
      exact List.drop_left _ _

/-- C2: for every position (x, y) the zone classifier follows the table
d1 ∧ d2 → 'h' (up), d1 ∧ ¬d2 → 'g' (left), ¬d1 ∧ d2 → 'd' (right),
¬d1 ∧ ¬d2 → 'b' (down) with d1 = (y < 100 - x) and d2 = (y < x); every
point classifies to exactly one of the four symbols (no gaps, strict
comparisons resolve boundaries); in particular classify(0,0) = 'g' (left)
and classify(99,99) = 'b' (down). -/
theorem zone_classifier_table (x y : ℚ) :
    ((y < 100 - x → y < x → coord_to_zone x y = 'h') ∧
     (y < 100 - x → ¬y < x → coord_to_zone x y = 'g') ∧
     (¬y < 100 - x → y < x → coord_to_zone x y = 'd') ∧
     (¬y < 100 - x → ¬y < x → coord_to_zone x y = 'b')) ∧
    (coord_to_zone x y = 'h' ∨ coord_to_zone x y = 'g' ∨
     coord_to_zone x y = 'd' ∨ coord_to_zone x y = 'b') ∧
    coord_to_zone 0 0 = 'g' ∧ coord_to_zone 99 99 = 'b' := by
  refine ⟨⟨fun h1 h2 => ?_, fun h1 h2 => ?_, fun h1 h2 => ?_, fun h1 h2 => ?_⟩, ?_, ?_, ?_⟩
  · simp [coord_to_zone, h1, h2]
  · simp [coord_to_zone, h1, h2]
  · simp [coord_to_zone, h1, h2]
  · simp [coord_to_zone, h1, h2]
  · unfold coord_to_zone
    split_ifs <;> simp
  · norm_num [coord_to_zone]
  · norm_num [coord_to_zone]

/-- Witness for C2 at the concrete corner (0, 0). -/
theorem zone_classifier_table_witness :
    (0 : ℚ) < 100 - 0 ∧ ¬(0 : ℚ) < 0 ∧ coord_to_zone 0 0 = 'g' :=
  ⟨by norm_num, by norm_num,
    (zone_classifier_table 0 0).1.2.1 (by norm_num) (by norm_num)⟩

/-- C3: a `--cmd` configuration entry is accepted iff it is 2 to 5
direction letters followed by the separator `-`; on acceptance the stored
pattern is exactly the letters before the separator and the stored command
is the remainder after it, verbatim; rejection (`none`, the
EXIT_INVALID_USAGE path before the event loop) hits `"a-cmd"`, `"g"` and
`"gdbhx-cmd"`. -/
theorem config_entry_acceptance (s p a : List Char) :
    (parse_cmd s = some (p, a) ↔
      2 ≤ p.length ∧ p.length ≤ 5 ∧ (∀ c ∈ p, isDirLetter c) ∧ s = p ++ '-' :: a) ∧
    parse_cmd ("a-cmd".toList) = none ∧
    parse_cmd ("g".toList) = none ∧
    parse_cmd ("gdbhx-cmd".toList) = none :=
  ⟨parse_cmd_some_iff s p a, by decide, by decide, by decide⟩

/-- Witness for C3: `"gd-cmd"` is accepted with pattern `"gd"` and command `"cmd"`. -/
theorem config_entry_acceptance_witness :
    parse_cmd ("gd-cmd".toList) = some ("gd".toList, "cmd".toList) :=
  (config_entry_acceptance ("gd-cmd".toList) ("gd".toList) ("cmd".toList)).1.mpr
    (by decide)

/-- C5: a pattern matches a gesture string iff the two are equal in
length, symbols and order (`strcmp == 0` is exact equality on NUL-free
strings); concretely, pattern `"gd"` matches gesture `['g','d']`
(left, right) but neither `['g','d','h']` nor `['d','g']`. -/
theorem pattern_match_exact (ev pat : List Char)
    (hev : nulChar ∉ ev) (hpat : nulChar ∉ pat) :
    (strcmp ev pat = 0 ↔ ev = pat) ∧
    event_to_command ("gd".toList) [⟨"gd".toList, "X".toList⟩] = ["X".toList] ∧
    event_to_command ("gdh".toList) [⟨"gd".toList, "X".toList⟩] = [] ∧
    event_to_command ("dg".toList) [⟨"gd".toList, "X".toList⟩] = [] :=
  ⟨strcmp_eq_zero_iff ev pat hev hpat, by decide, by decide, by decide⟩

/-- Witness for C5 at the concrete strings `"gd"`, `"gd"`. -/
theorem pattern_match_exact_witness : strcmp ("gd".toList) ("gd".toList) = 0 :=
  (pattern_match_exact ("gd".toList) ("gd".toList) (by decide) (by decide)).1.mpr rfl

/-- C6: a contact-down whose slot is negative or at least 5 is silently
dropped: the state (gesture buffer and binding table) is unchanged and no
command is executed. -/
theorem out_of_range_slot_dropped (st : State) (nb : Int) (x y : ℚ)
    (h : nb < 0 ∨ 5 ≤ nb) :
    touch_event st nb x y = (st, []) := by
  unfold touch_event
  rw [if_pos h]

/-- Witness for C6 at slot 5. -/
theorem out_of_range_slot_dropped_witness :
    touch_event (initState []) 5 0 0 = (initState [], []) :=
  out_of_range_slot_dropped (initState []) 5 0 0 (Or.inr (by norm_num))

/-- C10: recording is idempotent: performing the same contact-down twice
leaves the gesture buffer, and hence every derived gesture string,
identical to performing it once. -/
theorem record_idempotent (st : State) (s : Nat) (hs : s ≤ 4) (x y : ℚ) :
    ((touch_event (touch_event st (s : Int) x y).1 (s : Int) x y).1).buf
      = ((touch_event st (s : Int) x y).1).buf ∧
    ∀ k : Nat,
      derive_event ((touch_event (touch_event st (s : Int) x y).1 (s : Int) x y).1).buf k
        = derive_event ((touch_event st (s : Int) x y).1).buf k := by
  have hb2 : ((touch_event (touch_event st (s : Int) x y).1 (s : Int) x y).1).buf
      = ((touch_event st (s : Int) x y).1).buf := by
    rw [touch_event_buf (touch_event st (s : Int) x y).1 s hs x y,
      touch_event_buf st s hs x y, List.set_set]
  exact ⟨hb2, fun k => by rw [hb2]⟩

/-- Witness for C10 at slot 1 and position (99, 50). -/
theorem record_idempotent_witness :
    ((touch_event (touch_event (initState []) ((1 : Nat) : Int) 99 50).1
        ((1 : Nat) : Int) 99 50).1).buf
      = ((touch_event (initState []) ((1 : Nat) : Int) 99 50).1).buf :=
  (record_idempotent (initState []) 1 (by norm_num) 99 50).1

/-- C1 counterexample: the match loop has no break, so with two bindings
of identical pattern `"gd"` declared A then B (table head = B), the
gesture `"gd"` at slot 1 executes BOTH commands, not only the first
matching entry's: the executed list is `[B, A]` with B ≠ A. -/
theorem only_first_match_refuted :
    (touch_event (touch_event (initState cexCmds) 0 0 0).1 1 99 50).2
      = ["B".toList, "A".toList] ∧ ("B".toList : List Char) ≠ "A".toList := by
  constructor
  · norm_num [touch_event, initState, coord_to_zone, derive_event, event_to_command,
      strcmp, nulChar, cexCmds, List.set, List.take, List.takeWhile]
  · decide

/-- C1 amended: the query scans the table in order (most recently declared
first) and executes the command of EVERY entry whose pattern strcmp-equals
the gesture; the first such entry's command is executed first — so with
identical patterns declared A then B, B's command is triggered (first). -/
theorem match_scan_order_all (st : State) (s : Nat) (x y : ℚ)
    (hs1 : 1 ≤ s) (hs4 : s ≤ 4) :
    (touch_event st (s : Int) x y).2
      = (st.commands.filter
          (fun c => strcmp (derive_event (st.buf.set s (coord_to_zone x y)) s) c.event
            == 0)).map Command.action ∧
    ((touch_event st (s : Int) x y).2).head?
      = (st.commands.find?
          (fun c => strcmp (derive_event (st.buf.set s (coord_to_zone x y)) s) c.event
            == 0)).map Command.action ∧
    (touch_event (touch_event (initState cexCmds) 0 0 0).1 1 99 50).2.head?
      = some ("B".toList) := by
  refine ⟨?_, ?_, ?_⟩
  · rw [touch_event_exec st s hs1 hs4 x y, event_to_command_eq_filter]
  · rw [touch_event_exec st s hs1 hs4 x y, event_to_command_head]
  · norm_num [touch_event, initState, coord_to_zone, derive_event, event_to_command,
      strcmp, nulChar, cexCmds, List.set, List.take, List.takeWhile]

/-- Witness for C1's amended theorem at a concrete state and slot. -/
theorem match_scan_order_all_witness :
    (touch_event wStC8 ((1 : Nat) : Int) 99 50).2
      = (wStC8.commands.filter
          (fun c => strcmp (derive_event (wStC8.buf.set 1 (coord_to_zone 99 50)) 1) c.event
            == 0)).map Command.action :=
  (match_scan_order_all wStC8 1 99 50 (by norm_num) (by norm_num)).1

/-- C4: a contact-down at slot 0 records the classified symbol at entry 0
and executes nothing; a contact-down at slot s in 1..4 records at entry s
and matches against the gesture string consisting of buffer entries 0
through s in index order, whose length is exactly s + 1 (buffer entries
below s hold zone symbols — the spec's dispatch-order invariant — so the
NUL truncation of `strncpy` does not shorten the string). -/
theorem contact_down_dispatch (st : State) (s : Nat) (x y : ℚ)
    (hlen : st.buf.length = 5) (hs1 : 1 ≤ s) (hs4 : s ≤ 4)
    (hrec : ∀ i : Nat, i < s → st.buf[i]? ≠ some nulChar) :
    touch_event st (0 : Int) x y
      = ({ st with buf := st.buf.set 0 (coord_to_zone x y) }, []) ∧
    ((touch_event st (s : Int) x y).1).buf = st.buf.set s (coord_to_zone x y) ∧
    (touch_event st (s : Int) x y).2
      = event_to_command ((st.buf.set s (coord_to_zone x y)).take (s + 1)) st.commands ∧
    ((st.buf.set s (coord_to_zone x y)).take (s + 1)).length = s + 1 := by
  have hall := take_set_all_ne_nul hlen hs4 (coord_to_zone_ne_nul x y) hrec
  refine ⟨touch_event_zero st x y, touch_event_buf st s hs4 x y, ?_, ?_⟩
  · rw [touch_event_exec st s hs1 hs4 x y]
    unfold derive_event
    rw [takeWhile_ne_nul_eq_self _ hall]
  · exact take_length_of_le (by rw [List.length_set, hlen]; omega)

/-- Witness for C4 at slot 1 in a state with slot 0 already recorded. -/
theorem contact_down_dispatch_witness :
    (touch_event wStC4 ((1 : Nat) : Int) 99 50).2
      = event_to_command ((wStC4.buf.set 1 (coord_to_zone 99 50)).take 2) wStC4.commands ∧
    ((wStC4.buf.set 1 (coord_to_zone 99 50)).take 2).length = 2 :=
  ⟨(contact_down_dispatch wStC4 1 99 50 (by decide) (by norm_num) (by norm_num)
      (by intro i hi; interval_cases i; decide)).2.2.1,
   (contact_down_dispatch wStC4 1 99 50 (by decide) (by norm_num) (by norm_num)
      (by intro i hi; interval_cases i; decide)).2.2.2⟩

/-- C7: querying the binding table leaves the gesture buffer and the
binding table unchanged: after a contact-down at slot s the table is
identical and every buffer entry other than s keeps its value (slots above
a matched index included), so the same contact sequence still matches a
longer pattern as later slots arrive — concretely, with `gd-A` and
`gdb-B` configured, slots 0,1 trigger A and the subsequent slot 2 still
triggers B. -/
theorem query_preserves_buffer_and_table (st : State) (s : Nat) (hs : s ≤ 4) (x y : ℚ) :
    ((touch_event st (s : Int) x y).1).commands = st.commands ∧
    (∀ i : Nat, i ≠ s → ((touch_event st (s : Int) x y).1).buf[i]? = st.buf[i]?) ∧
    (touch_event (touch_event (initState cmds7) 0 0 0).1 1 99 50).2 = ["A".toList] ∧
    (touch_event (touch_event (touch_event (initState cmds7) 0 0 0).1 1 99 50).1
        2 50 99).2 = ["B".toList] := by
  refine ⟨touch_event_commands st s hs x y, ?_, ?_⟩
  · intro i hi
    rw [touch_event_buf st s hs x y, List.getElem?_set_ne (Ne.symm hi)]
  · constructor
    · norm_num [touch_event, initState, coord_to_zone, derive_event, event_to_command,
        strcmp, nulChar, cmds7, List.set, List.take, List.takeWhile]
      decide
    · norm_num [touch_event, initState, coord_to_zone, derive_event, event_to_command,
        strcmp, nulChar, cmds7, List.set, List.take, List.takeWhile]
      decide

/-- Witness for C7 at slot 1: the table after the event equals the table before. -/
theorem query_preserves_buffer_and_table_witness :
    ((touch_event (initState cmds7) ((1 : Nat) : Int) 99 50).1).commands
      = (initState cmds7).commands :=
  (query_preserves_buffer_and_table (initState cmds7) 1 (by norm_num) 99 50).1

/-- C8: on a contact-down at slot s in 1..4, EVERY table entry whose
pattern equals the derived gesture string has its command executed, in
table order (most recently declared first): the executed list is the
action of each entry whose pattern equals the gesture, not at most one. -/
theorem all_matches_execute (st : State) (s : Nat) (x y : ℚ)
    (hlen : st.buf.length = 5) (hs1 : 1 ≤ s) (hs4 : s ≤ 4)
    (hrec : ∀ i : Nat, i < s → st.buf[i]? ≠ some nulChar)
    (hpat : ∀ c ∈ st.commands, nulChar ∉ c.event) :
    (touch_event st (s : Int) x y).2
      = (st.commands.filter
          (fun c => c.event == (st.buf.set s (coord_to_zone x y)).take (s + 1))).map
          Command.action := by
  have hall := take_set_all_ne_nul hlen hs4 (coord_to_zone_ne_nul x y) hrec
  have hg : derive_event (st.buf.set s (coord_to_zone x y)) s
      = (st.buf.set s (coord_to_zone x y)).take (s + 1) := by
    unfold derive_event
    rw [takeWhile_ne_nul_eq_self _ hall]
  rw [touch_event_exec st s hs1 hs4 x y, hg, event_to_command_eq_filter]
  congr 1
  apply List.filter_congr
  intro c hc
  have hng : nulChar ∉ (st.buf.set s (coord_to_zone x y)).take (s + 1) :=
    fun hmem => hall nulChar hmem rfl
  have hiff := strcmp_eq_zero_iff _ _ hng (hpat c hc)
  rw [Bool.eq_iff_iff]
  simp only [beq_iff_eq, hiff]
  exact eq_comm

/-- Witness for C8: with two identical `"gd"` patterns both commands run. -/
theorem all_matches_execute_witness :
    (touch_event wStC8 ((1 : Nat) : Int) 99 50).2
      = (wStC8.commands.filter
          (fun c => c.event == (wStC8.buf.set 1 (coord_to_zone 99 50)).take 2)).map
          Command.action :=
  all_matches_execute wStC8 1 99 50 (by decide) (by norm_num) (by norm_num)
    (by intro i hi; interval_cases i; decide) (by decide)

/-- C9: if a contact-down arrives at slot s in 1..4 while buffer entry 0
still holds its zero-initialised NUL (slot 0 never recorded since process
start), the derived gesture string truncates to the empty string and no
accepted binding (2-5 direction letters) can match: nothing executes. -/
theorem unset_slot0_empty_gesture (st : State) (s : Nat) (x y : ℚ)
    (h0 : st.buf[0]? = some nulChar)
    (hs1 : 1 ≤ s) (hs4 : s ≤ 4)
    (hpat : ∀ c ∈ st.commands, 2 ≤ c.event.length ∧ ∀ ch ∈ c.event, isDirLetter ch) :
    (touch_event st (s : Int) x y).2 = [] ∧
    ((initState st.commands).buf)[0]? = some nulChar := by
  refine ⟨?_, rfl⟩
  rw [touch_event_exec st s hs1 hs4 x y]
  have hset0 : (st.buf.set s (coord_to_zone x y))[0]? = some nulChar := by
    rw [List.getElem?_set_ne (by omega : s ≠ 0)]
    exact h0
  obtain ⟨hd, tl, hbuf⟩ : ∃ hd tl, st.buf.set s (coord_to_zone x y) = hd :: tl := by
    cases hb : st.buf.set s (coord_to_zone x y) with
    | nil => rw [hb] at hset0; exact absurd hset0 (by simp)
    | cons hd tl => exact ⟨hd, tl, rfl⟩
  have hhd : hd = nulChar := by
    rw [hbuf] at hset0
    simpa using hset0
  have hderive : derive_event (st.buf.set s (coord_to_zone x y)) s = [] := by
    unfold derive_event
    rw [hbuf, List.take_succ_cons, List.takeWhile_cons]
    simp [hhd]
  rw [hderive]
  apply event_to_command_nil_of_no_match
  intro c hc
  obtain ⟨hc2, hcdir⟩ := hpat c hc
  cases hev : c.event with
  | nil => rw [hev] at hc2; exact absurd hc2 (by simp)
  | cons d ds =>
    rw [show strcmp [] (d :: ds) = -(d.toNat : Int) from rfl]
    have hd1 : isDirLetter d := by
      rw [hev] at hcdir
      exact hcdir d (List.mem_cons_self d ds)
    have hdn : d.toNat ≠ 0 := toNat_ne_zero_of_ne_nul (dirLetter_ne_nul hd1)
    omega

/-- Witness for C9: first event of the process at slot 2 executes nothing. -/
theorem unset_slot0_empty_gesture_witness :
    (touch_event (initState [⟨"gd".toList, "run".toList⟩]) ((2 : Nat) : Int) 0 0).2 = [] :=
  (unset_slot0_empty_gesture (initState [⟨"gd".toList, "run".toList⟩]) 2 0 0
    (by decide) (by norm_num) (by norm_num) (by decide)).1

end TapToCommand
